import Mathlib

/-!
Shallow embedding of `src/memmanager.h`: the `MemoryManager` arena, its
`MemoryBlock` records, and the operations `allocate`, `allocateArray` and
`dealloc`, together with a model of the underlying heap allocator and of the
destruction actions that the captured deleters perform.
-/

/-- A C++ type, as far as the arena can observe it: its name (the concrete
type captured inside each deleter lambda) and whether `std::is_class_v<T>`
holds, which is what the two `static_assert`s in the source test. -/
structure Ty where
  name : String
  isClass : Bool
deriving DecidableEq

/-- The destruction action captured in a `MemoryBlock`'s deleter function
pointer: `allocate<T>` captures `delete static_cast<T*>(p)` (single-object
deletion with the concrete type `T`), `allocateArray<T>` captures
`delete[] static_cast<T*>(p)` (array-aware deletion with the concrete `T`). -/
inductive Deleter where
  | deleteObject : Ty → Deleter
  | deleteArray : Ty → Deleter
deriving DecidableEq

/-- One invocation of a destruction action: which address was passed to the
deleter and which deleter ran. -/
structure DestructionEvent where
  ptr : Nat
  deleter : Deleter
deriving DecidableEq

/-- `MemoryManager::MemoryBlock`: a type-erased pointer together with the
function pointer used for its custom deletion. Addresses are modelled as
naturals, `0` playing the role of `nullptr`. -/
structure MemoryBlock where
  ptr : Nat
  deleter : Deleter
deriving DecidableEq

/-- `~MemoryBlock() { if (ptr) deleter(ptr); }`: the destruction events the
block's destructor emits, one invocation of the captured deleter at `ptr`
when `ptr` is non-null, none otherwise. -/
def MemoryBlock.destroy (b : MemoryBlock) : List DestructionEvent :=
  if b.ptr ≠ 0 then [⟨b.ptr, b.deleter⟩] else []

/-- `class MemoryManager`: its only data member is
`std::vector<std::unique_ptr<MemoryBlock>> memoryBlocks`, modelled as the
list of blocks in insertion order. A freshly constructed manager has the
empty vector. -/
structure MemoryManager where
  memoryBlocks : List MemoryBlock
deriving DecidableEq

/-- The C++ free store outside the arena: `new` hands out fresh non-null
addresses. `nextAddr` is the last address handed out (so every address the
heap ever returned is positive and at most `nextAddr`). -/
structure Heap where
  nextAddr : Nat
deriving DecidableEq

/-- One heap request (`new T(...)` or `new T[n]`). The `ok` flag says
whether the free store can satisfy the request; on failure `new` throws
`std::bad_alloc` and returns nothing. On success a fresh non-null address
is produced. -/
def Heap.alloc (h : Heap) (ok : Bool) : Option (Nat × Heap) :=
  if ok then some (h.nextAddr + 1, ⟨h.nextAddr + 1⟩) else none

/-- The two failure modes of an allocation call: the `static_assert`
rejection (type misuse) and an out-of-memory `std::bad_alloc`. -/
inductive AllocError where
  | typeMisuse
  | allocationError
deriving DecidableEq

/-- The complete outcome of one `allocate`/`allocateArray` call: the value
returned to the caller (or the error thrown), the heap afterwards, the
arena state afterwards, and every destruction action the call invoked. -/
structure AllocResult where
  res : Except AllocError Nat
  heap : Heap
  state : MemoryManager
  destroyed : List DestructionEvent

namespace MemoryManager

/-- `template <typename T> T* allocateArray(size_t size)`:
`static_assert(!std::is_class_v<T>, ...)`, then `new T[size]`, then
`memoryBlocks.emplace_back(make_unique<MemoryBlock>(rawPtr, delete[]-lambda))`,
then return the raw pointer. A failed `static_assert` rejects the call
before any heap request; a failed `new` propagates `bad_alloc` with the
vector untouched. No deleter is ever invoked during the call. -/
def allocateArray (T : Ty) (size : Nat) (ok : Bool) (h : Heap) (m : MemoryManager) : AllocResult :=
  if T.isClass then ⟨.error .typeMisuse, h, m, []⟩
  else
    match h.alloc ok with
    | none => ⟨.error .allocationError, h, m, []⟩
    | some (p, h') => ⟨.ok p, h', ⟨m.memoryBlocks ++ [⟨p, .deleteArray T⟩]⟩, []⟩

/-- `template <typename T, typename... Args> T* allocate(Args&&... args)`:
`static_assert(std::is_class_v<T>, ...)`, then `new T(args...)`, then
`memoryBlocks.emplace_back(make_unique<MemoryBlock>(rawPtr, delete-lambda))`,
then return the raw pointer. The constructor arguments do not affect the
arena's own state, so they are not modelled. -/
def allocate (T : Ty) (ok : Bool) (h : Heap) (m : MemoryManager) : AllocResult :=
  if !T.isClass then ⟨.error .typeMisuse, h, m, []⟩
  else
    match h.alloc ok with
    | none => ⟨.error .allocationError, h, m, []⟩
    | some (p, h') => ⟨.ok p, h', ⟨m.memoryBlocks ++ [⟨p, .deleteObject T⟩]⟩, []⟩

/-- `void dealloc() { memoryBlocks.clear(); }`: clearing the vector runs
`~MemoryBlock` on every held block in sequence order, and leaves the vector
empty. Returns the emitted destruction events and the arena afterwards. -/
def dealloc (m : MemoryManager) : List DestructionEvent × MemoryManager :=
  (m.memoryBlocks.flatMap MemoryBlock.destroy, ⟨[]⟩)

/-- The arena's own (implicit) destructor `~MemoryManager()`: it destroys
the `memoryBlocks` vector, which runs `~MemoryBlock` on every held block,
emitting the same destruction events as `dealloc`. -/
def destruct (m : MemoryManager) : List DestructionEvent :=
  m.memoryBlocks.flatMap MemoryBlock.destroy

end MemoryManager

/-- Number of non-trivial element destructor invocations that
`delete[] static_cast<T*>(p)` performs on an array of `size` elements:
C++ runs `~T` on each element for class types, while a non-class `T` has a
trivial destructor, so zero element destructions occur. -/
def arrayElementDestructorCalls (T : Ty) (size : Nat) : Nat :=
  if T.isClass then size else 0

/-- One allocation request issued by the caller: `allocate<T>(args...)` or
`allocateArray<T>(n)`. -/
inductive AllocCall where
  | alloc : Ty → AllocCall
  | allocArray : Ty → Nat → AllocCall
deriving DecidableEq

/-- The deleter that a successful call captures in its new record:
single-object deletion for `allocate<T>`, array deletion for
`allocateArray<T>`, each with the original concrete type. -/
def AllocCall.deleterOf : AllocCall → Deleter
  | .alloc T => .deleteObject T
  | .allocArray T _ => .deleteArray T

/-- Dispatch one call against the arena. -/
def runCall (c : AllocCall) (ok : Bool) (h : Heap) (m : MemoryManager) : AllocResult :=
  match c with
  | .alloc T => MemoryManager.allocate T ok h m
  | .allocArray T n => MemoryManager.allocateArray T n ok h m

/-- Run a sequence of calls, each with its own heap-success flag; a thrown
error propagates to the caller and aborts the sequence. -/
def runCalls (cs : List (AllocCall × Bool)) (h : Heap) (m : MemoryManager) :
    Except AllocError (Heap × MemoryManager) :=
  match cs with
  | [] => .ok (h, m)
  | c :: rest =>
    match (runCall c.1 c.2 h m).res with
    | .error e => .error e
    | .ok _ => runCalls rest (runCall c.1 c.2 h m).heap (runCall c.1 c.2 h m).state

/-- The arena states reachable by the code: every held block has a non-null
address the heap has handed out, and addresses are strictly increasing in
insertion order (each `new` returns a fresh address). -/
def ArenaInv (h : Heap) (m : MemoryManager) : Prop :=
  (∀ b ∈ m.memoryBlocks, 0 < b.ptr ∧ b.ptr ≤ h.nextAddr) ∧
  (m.memoryBlocks.map MemoryBlock.ptr).Pairwise (· < ·)

theorem runCall_ok (c : AllocCall) (ok : Bool) (h : Heap) (m : MemoryManager) (p : Nat)
    (hres : (runCall c ok h m).res = .ok p) :
    p = h.nextAddr + 1 ∧ (runCall c ok h m).heap = ⟨h.nextAddr + 1⟩ ∧
    (runCall c ok h m).state = ⟨m.memoryBlocks ++ [⟨p, c.deleterOf⟩]⟩ ∧
    (runCall c ok h m).destroyed = [] := by
  cases c with
  | alloc T =>
    cases hT : T.isClass <;> cases ok <;>
      simp_all [runCall, MemoryManager.allocate, Heap.alloc, AllocCall.deleterOf]
  | allocArray T n =>
    cases hT : T.isClass <;> cases ok <;>
      simp_all [runCall, MemoryManager.allocateArray, Heap.alloc, AllocCall.deleterOf]

theorem runCall_error (c : AllocCall) (ok : Bool) (h : Heap) (m : MemoryManager) (e : AllocError)
    (hres : (runCall c ok h m).res = .error e) :
    (runCall c ok h m).heap = h ∧ (runCall c ok h m).state = m ∧
    (runCall c ok h m).destroyed = [] := by
  cases c with
  | alloc T =>
    cases hT : T.isClass <;> cases ok <;>
      simp_all [runCall, MemoryManager.allocate, Heap.alloc]
  | allocArray T n =>
    cases hT : T.isClass <;> cases ok <;>
      simp_all [runCall, MemoryManager.allocateArray, Heap.alloc]

/-- C2: if an `allocate` or `allocateArray` call fails with an
`AllocationError` (the underlying heap request fails), then no record is
appended for that attempt and every previously retained record is unchanged:
the arena state (and the heap) are as if the failing call never happened, and
no destruction action ran. -/
theorem allocation_failure_is_strongly_safe (T : Ty) (n : Nat) (ok : Bool) (h : Heap)
    (m : MemoryManager) :
    ((MemoryManager.allocate T ok h m).res = .error .allocationError →
      (MemoryManager.allocate T ok h m).state = m ∧
      (MemoryManager.allocate T ok h m).heap = h ∧
      (MemoryManager.allocate T ok h m).destroyed = []) ∧
    ((MemoryManager.allocateArray T n ok h m).res = .error .allocationError →
      (MemoryManager.allocateArray T n ok h m).state = m ∧
      (MemoryManager.allocateArray T n ok h m).heap = h ∧
      (MemoryManager.allocateArray T n ok h m).destroyed = []) := by
  constructor
  · intro hres
    cases hT : T.isClass <;> cases ok <;>
      simp_all [MemoryManager.allocate, Heap.alloc]
  · intro hres
    cases hT : T.isClass <;> cases ok <;>
      simp_all [MemoryManager.allocateArray, Heap.alloc]

theorem allocation_failure_is_strongly_safe_witness :
    ((MemoryManager.allocate ⟨"MyClass", true⟩ false ⟨0⟩ ⟨[]⟩).state = ⟨[]⟩ ∧
     (MemoryManager.allocate ⟨"MyClass", true⟩ false ⟨0⟩ ⟨[]⟩).heap = ⟨0⟩ ∧
     (MemoryManager.allocate ⟨"MyClass", true⟩ false ⟨0⟩ ⟨[]⟩).destroyed = []) ∧
    ((MemoryManager.allocateArray ⟨"int", false⟩ 7 false ⟨0⟩ ⟨[]⟩).state = ⟨[]⟩ ∧
     (MemoryManager.allocateArray ⟨"int", false⟩ 7 false ⟨0⟩ ⟨[]⟩).heap = ⟨0⟩ ∧
     (MemoryManager.allocateArray ⟨"int", false⟩ 7 false ⟨0⟩ ⟨[]⟩).destroyed = []) :=
  ⟨(allocation_failure_is_strongly_safe ⟨"MyClass", true⟩ 7 false ⟨0⟩ ⟨[]⟩).1 rfl,
   (allocation_failure_is_strongly_safe ⟨"int", false⟩ 7 false ⟨0⟩ ⟨[]⟩).2 rfl⟩

/-- C3: `allocate` with a non-class (primitive) type, and `allocateArray`
with a class type, are rejected with a `TypeMisuseError` before any
allocation attempt: the outcome is the type-misuse error with the heap, the
arena state untouched and no destruction action run, independently of
whether the heap could have satisfied the request. -/
theorem type_misuse_rejected_before_allocation (T : Ty) (n : Nat) (ok : Bool) (h : Heap)
    (m : MemoryManager) :
    (¬T.isClass → MemoryManager.allocate T ok h m = ⟨.error .typeMisuse, h, m, []⟩) ∧
    (T.isClass → MemoryManager.allocateArray T n ok h m = ⟨.error .typeMisuse, h, m, []⟩) := by
  constructor
  · intro hT
    simp [MemoryManager.allocate, hT]
  · intro hT
    simp [MemoryManager.allocateArray, hT]

theorem type_misuse_rejected_before_allocation_witness :
    MemoryManager.allocate ⟨"int", false⟩ true ⟨0⟩ ⟨[]⟩ =
      ⟨.error .typeMisuse, ⟨0⟩, ⟨[]⟩, []⟩ ∧
    MemoryManager.allocateArray ⟨"MyClass", true⟩ 3 true ⟨0⟩ ⟨[]⟩ =
      ⟨.error .typeMisuse, ⟨0⟩, ⟨[]⟩, []⟩ :=
  ⟨(type_misuse_rejected_before_allocation ⟨"int", false⟩ 3 true ⟨0⟩ ⟨[]⟩).1 (by decide),
   (type_misuse_rejected_before_allocation ⟨"MyClass", true⟩ 3 true ⟨0⟩ ⟨[]⟩).2 (by decide)⟩

/-- C4: `dealloc` on an empty arena is a no-op: it invokes zero destruction
actions and leaves the arena empty; consequently `dealloc` is idempotent (a
second consecutive `dealloc` invokes nothing and keeps the arena empty). -/
theorem dealloc_empty_is_noop_and_idempotent :
    MemoryManager.dealloc ⟨[]⟩ = ([], ⟨[]⟩) ∧
    ∀ m : MemoryManager, MemoryManager.dealloc (MemoryManager.dealloc m).2 = ([], ⟨[]⟩) :=
  ⟨rfl, fun _ => rfl⟩

/-- C6: after `dealloc` the arena state equals the freshly-constructed empty
arena, so any subsequent sequence of allocation calls behaves exactly as the
same sequence run against a fresh arena, independently of the prior
generations stored in `m`. -/
theorem arena_reusable_after_dealloc (m : MemoryManager) (cs : List (AllocCall × Bool))
    (h : Heap) :
    (MemoryManager.dealloc m).2 = ⟨[]⟩ ∧
    runCalls cs h (MemoryManager.dealloc m).2 = runCalls cs h ⟨[]⟩ :=
  ⟨rfl, rfl⟩

/-- C5: for a primitive (non-class) type, `allocateArray` with count 0 and a
satisfiable heap request succeeds, appends exactly one record holding a
valid (non-null) empty-buffer handle, the record's destruction action is
safe to invoke (it performs zero element destructions yet still emits the
single array-release of the backing allocation), and a later `dealloc`
handles it: its event list gains exactly that one release. -/
theorem allocateArray_zero_succeeds (T : Ty) (h : Heap) (m : MemoryManager)
    (hT : ¬T.isClass) :
    (MemoryManager.allocateArray T 0 true h m).res = .ok (h.nextAddr + 1) ∧
    0 < h.nextAddr + 1 ∧
    (MemoryManager.allocateArray T 0 true h m).state =
      ⟨m.memoryBlocks ++ [⟨h.nextAddr + 1, .deleteArray T⟩]⟩ ∧
    MemoryBlock.destroy ⟨h.nextAddr + 1, .deleteArray T⟩ =
      [⟨h.nextAddr + 1, .deleteArray T⟩] ∧
    arrayElementDestructorCalls T 0 = 0 ∧
    (MemoryManager.dealloc (MemoryManager.allocateArray T 0 true h m).state).1 =
      (MemoryManager.dealloc m).1 ++ [⟨h.nextAddr + 1, .deleteArray T⟩] := by
  refine ⟨?_, Nat.succ_pos _, ?_, ?_, ?_, ?_⟩ <;>
    simp [MemoryManager.allocateArray, MemoryManager.dealloc, Heap.alloc, hT,
      MemoryBlock.destroy, arrayElementDestructorCalls]

theorem allocateArray_zero_succeeds_witness :
    (MemoryManager.allocateArray ⟨"int", false⟩ 0 true ⟨0⟩ ⟨[]⟩).res = .ok 1 ∧
    0 < 1 ∧
    (MemoryManager.allocateArray ⟨"int", false⟩ 0 true ⟨0⟩ ⟨[]⟩).state =
      ⟨[⟨1, .deleteArray ⟨"int", false⟩⟩]⟩ ∧
    MemoryBlock.destroy ⟨1, .deleteArray ⟨"int", false⟩⟩ =
      [⟨1, .deleteArray ⟨"int", false⟩⟩] ∧
    arrayElementDestructorCalls ⟨"int", false⟩ 0 = 0 ∧
    (MemoryManager.dealloc (MemoryManager.allocateArray ⟨"int", false⟩ 0 true ⟨0⟩ ⟨[]⟩).state).1 =
      (MemoryManager.dealloc ⟨[]⟩).1 ++ [⟨1, .deleteArray ⟨"int", false⟩⟩] :=
  allocateArray_zero_succeeds ⟨"int", false⟩ ⟨0⟩ ⟨[]⟩ (by decide)

/-- C8: every successful `allocate`/`allocateArray` call grows the arena's
record sequence by exactly one record, and the handle it returns is
precisely the address that the new record's destruction action will later
destroy (one deleter invocation at that address, with the deleter shaped by
the call). -/
theorem successful_call_appends_one_record (c : AllocCall) (ok : Bool) (h : Heap)
    (m : MemoryManager) (p : Nat) (hres : (runCall c ok h m).res = .ok p) :
    (runCall c ok h m).state.memoryBlocks = m.memoryBlocks ++ [⟨p, c.deleterOf⟩] ∧
    (runCall c ok h m).state.memoryBlocks.length = m.memoryBlocks.length + 1 ∧
    MemoryBlock.destroy ⟨p, c.deleterOf⟩ = [⟨p, c.deleterOf⟩] := by
  obtain ⟨hp, -, hstate, -⟩ := runCall_ok c ok h m p hres
  refine ⟨by rw [hstate], by rw [hstate]; simp, ?_⟩
  simp [MemoryBlock.destroy, hp]

theorem successful_call_appends_one_record_witness :
    (runCall (.alloc ⟨"MyClass", true⟩) true ⟨0⟩ ⟨[]⟩).state.memoryBlocks =
      [] ++ [⟨1, (AllocCall.alloc ⟨"MyClass", true⟩).deleterOf⟩] ∧
    (runCall (.alloc ⟨"MyClass", true⟩) true ⟨0⟩ ⟨[]⟩).state.memoryBlocks.length = 0 + 1 ∧
    MemoryBlock.destroy ⟨1, (AllocCall.alloc ⟨"MyClass", true⟩).deleterOf⟩ =
      [⟨1, (AllocCall.alloc ⟨"MyClass", true⟩).deleterOf⟩] :=
  successful_call_appends_one_record (.alloc ⟨"MyClass", true⟩) true ⟨0⟩ ⟨[]⟩ 1 rfl

/-- C10: a successful `allocate`/`allocateArray` call invokes no destruction
action, and its only effect on the arena is appending the one new record:
the previously retained records stand unchanged, in order, before the new
record. -/
theorem successful_call_frame (c : AllocCall) (ok : Bool) (h : Heap)
    (m : MemoryManager) (p : Nat) (hres : (runCall c ok h m).res = .ok p) :
    (runCall c ok h m).destroyed = [] ∧
    (runCall c ok h m).state.memoryBlocks = m.memoryBlocks ++ [⟨p, c.deleterOf⟩] := by
  obtain ⟨-, -, hstate, hdes⟩ := runCall_ok c ok h m p hres
  exact ⟨hdes, by rw [hstate]⟩

theorem successful_call_frame_witness :
    (runCall (.allocArray ⟨"double", false⟩ 200) true ⟨1⟩
      ⟨[⟨1, .deleteArray ⟨"int", false⟩⟩]⟩).destroyed = [] ∧
    (runCall (.allocArray ⟨"double", false⟩ 200) true ⟨1⟩
      ⟨[⟨1, .deleteArray ⟨"int", false⟩⟩]⟩).state.memoryBlocks =
      [⟨1, .deleteArray ⟨"int", false⟩⟩] ++
        [⟨2, (AllocCall.allocArray ⟨"double", false⟩ 200).deleterOf⟩] :=
  successful_call_frame (.allocArray ⟨"double", false⟩ 200) true ⟨1⟩
    ⟨[⟨1, .deleteArray ⟨"int", false⟩⟩]⟩ 2 rfl

theorem runCall_preserves_inv (c : AllocCall) (ok : Bool) (h : Heap) (m : MemoryManager)
    (p : Nat) (hres : (runCall c ok h m).res = .ok p) (hinv : ArenaInv h m) :
    ArenaInv (runCall c ok h m).heap (runCall c ok h m).state := by
  obtain ⟨hp, hheap, hstate, -⟩ := runCall_ok c ok h m p hres
  subst hp
  rw [hheap, hstate]
  obtain ⟨hmem, hpair⟩ := hinv
  constructor
  · intro b hb
    rcases List.mem_append.1 hb with hb | hb
    · exact ⟨(hmem b hb).1, Nat.le_trans (hmem b hb).2 (Nat.le_succ _)⟩
    · rcases List.mem_singleton.1 hb with rfl
      exact ⟨Nat.succ_pos _, Nat.le_refl _⟩
  · rw [List.map_append]
    refine List.pairwise_append.2 ⟨hpair, List.pairwise_singleton _ _, ?_⟩
    intro a ha b hb
    simp only [List.map_cons, List.map_nil, List.mem_singleton] at hb
    subst hb
    rcases List.mem_map.1 ha with ⟨blk, hblk, rfl⟩
    exact Nat.lt_succ_of_le (hmem blk hblk).2

theorem runCalls_preserves_inv (cs : List (AllocCall × Bool)) (h : Heap) (m : MemoryManager)
    (h' : Heap) (m' : MemoryManager) (hrun : runCalls cs h m = .ok (h', m'))
    (hinv : ArenaInv h m) : ArenaInv h' m' := by
  induction cs generalizing h m with
  | nil =>
    simp only [runCalls, Except.ok.injEq, Prod.mk.injEq] at hrun
    obtain ⟨rfl, rfl⟩ := hrun
    exact hinv
  | cons c rest ih =>
    simp only [runCalls] at hrun
    rcases hres : (runCall c.1 c.2 h m).res with e | p
    · rw [hres] at hrun
      simp at hrun
    · rw [hres] at hrun
      exact ih _ _ hrun (runCall_preserves_inv c.1 c.2 h m p hres hinv)

theorem runCalls_deleter_map (cs : List (AllocCall × Bool)) (h : Heap) (m : MemoryManager)
    (h' : Heap) (m' : MemoryManager) (hrun : runCalls cs h m = .ok (h', m')) :
    m'.memoryBlocks.map MemoryBlock.deleter =
      m.memoryBlocks.map MemoryBlock.deleter ++ cs.map (fun c => c.1.deleterOf) := by
  induction cs generalizing h m with
  | nil =>
    simp only [runCalls, Except.ok.injEq, Prod.mk.injEq] at hrun
    obtain ⟨rfl, rfl⟩ := hrun
    simp
  | cons c rest ih =>
    simp only [runCalls] at hrun
    rcases hres : (runCall c.1 c.2 h m).res with e | p
    · rw [hres] at hrun
      simp at hrun
    · rw [hres] at hrun
      obtain ⟨-, -, hstate, -⟩ := runCall_ok c.1 c.2 h m p hres
      rw [ih _ _ hrun, hstate]
      simp [AllocCall.deleterOf]

theorem flatMap_destroy_of_nonzero (l : List MemoryBlock) (hnz : ∀ b ∈ l, b.ptr ≠ 0) :
    l.flatMap MemoryBlock.destroy =
      l.map (fun b => (⟨b.ptr, b.deleter⟩ : DestructionEvent)) := by
  induction l with
  | nil => rfl
  | cons b t ih =>
    have hb := hnz b (List.mem_cons_self b t)
    have ht := ih fun x hx => hnz x (List.mem_cons_of_mem _ hx)
    simp [MemoryBlock.destroy, hb, ht]

theorem reachable_dealloc_events (cs : List (AllocCall × Bool)) (h0 h' : Heap)
    (m' : MemoryManager) (hrun : runCalls cs h0 ⟨[]⟩ = .ok (h', m')) :
    (MemoryManager.dealloc m').1 =
      m'.memoryBlocks.map (fun b => (⟨b.ptr, b.deleter⟩ : DestructionEvent)) ∧
    ((MemoryManager.dealloc m').1).Nodup := by
  have hinv := runCalls_preserves_inv cs h0 ⟨[]⟩ h' m' hrun (by constructor <;> simp)
  have hnz : ∀ b ∈ m'.memoryBlocks, b.ptr ≠ 0 :=
    fun b hb => Nat.pos_iff_ne_zero.1 (hinv.1 b hb).1
  have hev : (MemoryManager.dealloc m').1 =
      m'.memoryBlocks.map (fun b => (⟨b.ptr, b.deleter⟩ : DestructionEvent)) :=
    flatMap_destroy_of_nonzero _ hnz
  refine ⟨hev, ?_⟩
  have hptr : ((MemoryManager.dealloc m').1).map DestructionEvent.ptr =
      m'.memoryBlocks.map MemoryBlock.ptr := by
    rw [hev, List.map_map]
    rfl
  have hnd : (m'.memoryBlocks.map MemoryBlock.ptr).Nodup :=
    List.Pairwise.imp (fun hab => Nat.ne_of_lt hab) hinv.2
  exact List.Nodup.of_map DestructionEvent.ptr (hptr ▸ hnd)

/-- C1: after any sequence of successful allocation calls starting from a
fresh arena, `dealloc` invokes the captured destruction action of every
retained record exactly once — the event list has one entry per record and
each record's own action occurs in it exactly once — and afterwards the
arena's record sequence is empty. -/
theorem dealloc_runs_each_action_exactly_once (cs : List (AllocCall × Bool)) (h0 h' : Heap)
    (m' : MemoryManager) (hrun : runCalls cs h0 ⟨[]⟩ = .ok (h', m')) :
    ((MemoryManager.dealloc m').1).length = m'.memoryBlocks.length ∧
    (∀ b ∈ m'.memoryBlocks,
      ((MemoryManager.dealloc m').1).count (⟨b.ptr, b.deleter⟩ : DestructionEvent) = 1) ∧
    (MemoryManager.dealloc m').2 = ⟨[]⟩ := by
  obtain ⟨hev, hnd⟩ := reachable_dealloc_events cs h0 h' m' hrun
  refine ⟨by rw [hev]; simp, fun b hb => ?_, rfl⟩
  rw [hev]
  exact List.count_eq_one_of_mem (hev ▸ hnd) (List.mem_map_of_mem _ hb)

theorem dealloc_runs_each_action_exactly_once_witness :
    ((MemoryManager.dealloc ⟨[⟨1, .deleteArray ⟨"int", false⟩⟩,
        ⟨2, .deleteArray ⟨"double", false⟩⟩,
        ⟨3, .deleteObject ⟨"MyClass", true⟩⟩]⟩).1).length =
      (MemoryManager.mk [⟨1, .deleteArray ⟨"int", false⟩⟩,
        ⟨2, .deleteArray ⟨"double", false⟩⟩,
        ⟨3, .deleteObject ⟨"MyClass", true⟩⟩]).memoryBlocks.length ∧
    (∀ b ∈ (MemoryManager.mk [⟨1, .deleteArray ⟨"int", false⟩⟩,
        ⟨2, .deleteArray ⟨"double", false⟩⟩,
        ⟨3, .deleteObject ⟨"MyClass", true⟩⟩]).memoryBlocks,
      ((MemoryManager.dealloc ⟨[⟨1, .deleteArray ⟨"int", false⟩⟩,
        ⟨2, .deleteArray ⟨"double", false⟩⟩,
        ⟨3, .deleteObject ⟨"MyClass", true⟩⟩]⟩).1).count
          (⟨b.ptr, b.deleter⟩ : DestructionEvent) = 1) ∧
    (MemoryManager.dealloc ⟨[⟨1, .deleteArray ⟨"int", false⟩⟩,
        ⟨2, .deleteArray ⟨"double", false⟩⟩,
        ⟨3, .deleteObject ⟨"MyClass", true⟩⟩]⟩).2 = ⟨[]⟩ :=
  dealloc_runs_each_action_exactly_once
    [(.allocArray ⟨"int", false⟩ 100, true), (.allocArray ⟨"double", false⟩ 200, true),
     (.alloc ⟨"MyClass", true⟩, true)] ⟨0⟩ ⟨3⟩
    ⟨[⟨1, .deleteArray ⟨"int", false⟩⟩, ⟨2, .deleteArray ⟨"double", false⟩⟩,
      ⟨3, .deleteObject ⟨"MyClass", true⟩⟩]⟩ rfl

/-- C7: destroying the arena itself (its own destructor tearing down the
`memoryBlocks` vector) has the same effect on the retained records as
calling `dealloc`: it emits the identical destruction-event list, in which
every retained record's action occurs exactly once. -/
theorem arena_destructor_matches_dealloc (cs : List (AllocCall × Bool)) (h0 h' : Heap)
    (m' : MemoryManager) (hrun : runCalls cs h0 ⟨[]⟩ = .ok (h', m')) :
    MemoryManager.destruct m' = (MemoryManager.dealloc m').1 ∧
    ∀ b ∈ m'.memoryBlocks,
      (MemoryManager.destruct m').count (⟨b.ptr, b.deleter⟩ : DestructionEvent) = 1 := by
  obtain ⟨hev, hnd⟩ := reachable_dealloc_events cs h0 h' m' hrun
  refine ⟨rfl, fun b hb => ?_⟩
  show ((MemoryManager.dealloc m').1).count (⟨b.ptr, b.deleter⟩ : DestructionEvent) = 1
  rw [hev]
  exact List.count_eq_one_of_mem (hev ▸ hnd) (List.mem_map_of_mem _ hb)

theorem arena_destructor_matches_dealloc_witness :
    MemoryManager.destruct ⟨[⟨1, .deleteArray ⟨"int", false⟩⟩,
        ⟨2, .deleteObject ⟨"MyClass", true⟩⟩]⟩ =
      (MemoryManager.dealloc ⟨[⟨1, .deleteArray ⟨"int", false⟩⟩,
        ⟨2, .deleteObject ⟨"MyClass", true⟩⟩]⟩).1 ∧
    ∀ b ∈ (MemoryManager.mk [⟨1, .deleteArray ⟨"int", false⟩⟩,
        ⟨2, .deleteObject ⟨"MyClass", true⟩⟩]).memoryBlocks,
      (MemoryManager.destruct ⟨[⟨1, .deleteArray ⟨"int", false⟩⟩,
        ⟨2, .deleteObject ⟨"MyClass", true⟩⟩]⟩).count
        (⟨b.ptr, b.deleter⟩ : DestructionEvent) = 1 :=
  arena_destructor_matches_dealloc
    [(.allocArray ⟨"int", false⟩ 100, true), (.alloc ⟨"MyClass", true⟩, true)] ⟨0⟩ ⟨2⟩
    ⟨[⟨1, .deleteArray ⟨"int", false⟩⟩, ⟨2, .deleteObject ⟨"MyClass", true⟩⟩]⟩ rfl

/-- C9: in every arena state reached by a sequence of successful calls from
a fresh arena, the retained records' deleters are exactly, in order, the
deleters shaped by the originating calls — single-object deletion with the
original concrete type for `allocate`, array-aware deletion with the
original concrete type for `allocateArray` — and each record's destruction
action, when invoked, destroys exactly the payload it was created for: one
deleter invocation at that record's own address. -/
theorem record_deleters_match_calls (cs : List (AllocCall × Bool)) (h0 h' : Heap)
    (m' : MemoryManager) (hrun : runCalls cs h0 ⟨[]⟩ = .ok (h', m')) :
    m'.memoryBlocks.map MemoryBlock.deleter = cs.map (fun c => c.1.deleterOf) ∧
    ∀ b ∈ m'.memoryBlocks, MemoryBlock.destroy b = [⟨b.ptr, b.deleter⟩] := by
  have hmap := runCalls_deleter_map cs h0 ⟨[]⟩ h' m' hrun
  have hinv := runCalls_preserves_inv cs h0 ⟨[]⟩ h' m' hrun (by constructor <;> simp)
  refine ⟨by simpa using hmap, fun b hb => ?_⟩
  simp [MemoryBlock.destroy, Nat.pos_iff_ne_zero.1 (hinv.1 b hb).1]

theorem record_deleters_match_calls_witness :
    (MemoryManager.mk [⟨1, .deleteArray ⟨"int", false⟩⟩,
        ⟨2, .deleteObject ⟨"MyClass", true⟩⟩]).memoryBlocks.map MemoryBlock.deleter =
      ([(.allocArray ⟨"int", false⟩ 100, true), (.alloc ⟨"MyClass", true⟩, true)] :
        List (AllocCall × Bool)).map (fun c => c.1.deleterOf) ∧
    ∀ b ∈ (MemoryManager.mk [⟨1, .deleteArray ⟨"int", false⟩⟩,
        ⟨2, .deleteObject ⟨"MyClass", true⟩⟩]).memoryBlocks,
      MemoryBlock.destroy b = [⟨b.ptr, b.deleter⟩] :=
  record_deleters_match_calls
    [(.allocArray ⟨"int", false⟩ 100, true), (.alloc ⟨"MyClass", true⟩, true)] ⟨0⟩ ⟨2⟩
    ⟨[⟨1, .deleteArray ⟨"int", false⟩⟩, ⟨2, .deleteObject ⟨"MyClass", true⟩⟩]⟩ rfl
